import Mathlib

/-!
Verification development for the `hado` file-system router (`src/router.ts`).

The TypeScript source is shallowly embedded below:

* JavaScript string operations used by the router (`split`, `startsWith`,
  `endsWith`, `slice`, `substring`, `replace` with a string pattern) are
  modelled as structurally recursive functions over the underlying character
  list of a Lean `String`.
* The `UrlNode` trie and its `insert` / `#insert` / `lookup` / `#lookup`
  methods are translated field by field; exceptions become `Except` errors.
* The `LRUCache` class is modelled as a recency-ordered association list
  (head = oldest entry), mirroring JavaScript `Map` insertion-order semantics.
* The request `handler` closure of `createRouter` is modelled as a pure
  dispatch function; the two LRU caches memoize pure functions of otherwise
  fixed state, so a single dispatch from freshly built caches computes the
  same values as the uncached computation and the dispatcher is modelled
  cache-transparently.
-/

namespace Hado

/-! ## JavaScript string primitives, modelled over `String.data` -/

/-- JS `s.split(c)` for a single-character separator: accumulator-based split
of the character list. `''.split(c) = ['']`, `'/'.split('/') = ['', '']`. -/
def splitCharAux (c : Char) : List Char → List Char → List (List Char)
  | [], acc => [acc.reverse]
  | x :: xs, acc =>
    if x = c then acc.reverse :: splitCharAux c xs []
    else splitCharAux c xs (x :: acc)

/-- JS `s.split(c)` (single-character separator). -/
def jsSplit (s : String) (c : Char) : List String :=
  (splitCharAux c s.data []).map (fun l => ⟨l⟩)

/-- JS `s.startsWith(p)`. -/
def sStartsWith (s p : String) : Bool :=
  p.data.isPrefixOf s.data

/-- JS `s.endsWith(p)`. -/
def sEndsWith (s p : String) : Bool :=
  p.data.reverse.isPrefixOf s.data.reverse

/-- JS `s.substring(n)` / the drop part of `slice`. -/
def sDrop (s : String) (n : Nat) : String :=
  ⟨s.data.drop n⟩

/-- Dropping `n` characters from the right; `sDropRight (sDrop s 1) 1`
is JS `s.slice(1, -1)`. -/
def sDropRight (s : String) (n : Nat) : String :=
  ⟨s.data.take (s.data.length - n)⟩

/-- JS `s.replace(pat, '')` with a *string* pattern: removes the first
occurrence of `pat` only.  `s.replace('', '')` leaves `s` unchanged. -/
def rfAux (pat : List Char) : List Char → List Char
  | [] => []
  | x :: xs =>
    if pat.isPrefixOf (x :: xs) then (x :: xs).drop pat.length
    else x :: rfAux pat xs

/-- JS `s.replace(pat, '')` (first occurrence of a string pattern). -/
def replaceFirst (s pat : String) : String :=
  if pat.data = [] then s else ⟨rfAux pat.data s.data⟩

/-! ## The `UrlNode` trie (`src/router.ts`, class `UrlNode`)

`children` is the JS `Map<string, UrlNode>` as an insertion-ordered
association list (iteration order is never observed by the router, only
keyed access).  The remaining fields are the class fields verbatim. -/

inductive UrlNode : Type where
  | mk (children : List (String × UrlNode)) (placeholder : Bool)
      (slugName restSlugName optionalRestSlugName data : Option String)

def UrlNode.children : UrlNode → List (String × UrlNode)
  | .mk c _ _ _ _ _ => c

def UrlNode.placeholder : UrlNode → Bool
  | .mk _ p _ _ _ _ => p

def UrlNode.slugName : UrlNode → Option String
  | .mk _ _ s _ _ _ => s

def UrlNode.restSlugName : UrlNode → Option String
  | .mk _ _ _ r _ _ => r

def UrlNode.optionalRestSlugName : UrlNode → Option String
  | .mk _ _ _ _ o _ => o

def UrlNode.data : UrlNode → Option String
  | .mk _ _ _ _ _ d => d

/-- The `new UrlNode()` initial state: every field at its declared initial value. -/
def emptyNode : UrlNode := .mk [] true none none none none

/-- JS `children.get(k)`: first (unique) entry with key `k`. -/
def findChild (k : String) : List (String × UrlNode) → Option UrlNode
  | [] => none
  | (k0, c) :: rest => if k0 = k then some c else findChild k rest

def UrlNode.childGet (n : UrlNode) (k : String) : Option UrlNode :=
  findChild k n.children

/-- JS `children.set(k, v)`: overwrite in place, or append a new key
(JS `Map` insertion-order semantics). -/
def setChildList (k : String) (v : UrlNode) : List (String × UrlNode) → List (String × UrlNode)
  | [] => [(k, v)]
  | (k0, v0) :: rest =>
    if k0 = k then (k, v) :: rest else (k0, v0) :: setChildList k v rest

def UrlNode.setChild : UrlNode → String → UrlNode → UrlNode
  | .mk c p s r o d, k, v => .mk (setChildList k v c) p s r o d

def UrlNode.withSlugName : UrlNode → String → UrlNode
  | .mk c p _ r o d, name => .mk c p (some name) r o d

def UrlNode.withRestSlugName : UrlNode → String → UrlNode
  | .mk c p s _ o d, name => .mk c p s (some name) o d

def UrlNode.withOptionalRestSlugName : UrlNode → String → UrlNode
  | .mk c p s r _ d, name => .mk c p s r (some name) d

/-- Terminal update `this.placeholder = false; this.data = data` at the end of `#insert`. -/
def UrlNode.withData : UrlNode → String → UrlNode
  | .mk c _ s r o _, d => .mk c false s r o (some d)

/-! ## Insert (`UrlNode.insert` / `UrlNode.#insert`) -/

/-- The exceptions thrown by `#insert`.  The duplicate-route conflict
carries both colliding targets (the source formats them through
`userFriendlyPath` into the message text). -/
inductive InsertError : Type where
  | conflict (existing incoming : String)
  | catchAllNotLast
  | ellipsis (segmentName : String)
  | invalidName (segmentName : String)
  | slugMismatch (previous next : String)
  | duplicateSlug (name : String)
  | conflictingCatchAllRequired
  | conflictingCatchAllOptional
  | optionalNotSupported (segment : String)
  deriving DecidableEq

/-- The node-independent part of `#insert`'s segment handling: bracket
parsing, the optional/catch-all unwrapping, the ellipsis typo check and the
segment-name validation, in source order. -/
inductive SegClass : Type where
  | literal
  | slug (name : String)
  | catchAll (name : String)
  | optionalCatchAll (name : String)
  | err (e : InsertError)
  deriving DecidableEq

def classifySeg (seg : String) : SegClass :=
  if sStartsWith seg "[" && sEndsWith seg "]" then
    let s1 := sDropRight (sDrop seg 1) 1
    let inner :=
      if sStartsWith s1 "[" && sEndsWith s1 "]" then (sDropRight (sDrop s1 1) 1, true)
      else (s1, false)
    let name0 := inner.1
    let isOptional := inner.2
    if sStartsWith name0 "…" then .err (.ellipsis name0)
    else
      let stripped :=
        if sStartsWith name0 "..." then (sDrop name0 3, true) else (name0, false)
      let name := stripped.1
      let isCatchAll := stripped.2
      if sStartsWith name "[" || sEndsWith name "]" || sStartsWith name "." then
        .err (.invalidName name)
      else if isCatchAll then
        if isOptional then .optionalCatchAll name else .catchAll name
      else if isOptional then .err (.optionalNotSupported seg)
      else .slug name
  else .literal

/-- The `handleSlug` local function of `#insert`. -/
def handleSlug (previousSlug : Option String) (nextSlug : String)
    (slugNames : List String) : Except InsertError (List String) :=
  match previousSlug with
  | some p =>
    if p ≠ nextSlug then .error (.slugMismatch p nextSlug)
    else if nextSlug ∈ slugNames then .error (.duplicateSlug nextSlug)
    else .ok (slugNames ++ [nextSlug])
  | none =>
    if nextSlug ∈ slugNames then .error (.duplicateSlug nextSlug)
    else .ok (slugNames ++ [nextSlug])

/-- The `UrlNode.#insert` method, recursing on the remaining segments.  A thrown
exception aborts the whole route-table build, so the partially mutated
tree JS leaves behind on a throw is never observed; the model therefore
returns `Except` and discards the partial tree on error. -/
def insertAux (data : String) : List String → List String → Bool → UrlNode →
    Except InsertError UrlNode
  | [], _, _, n =>
    match n.data with
    | some d0 => .error (.conflict d0 data)
    | none => .ok (n.withData data)
  | seg :: rest, slugNames, isCatchAll, n =>
    if isCatchAll then .error .catchAllNotLast
    else
      match classifySeg seg with
      | .err e => .error e
      | .literal =>
        (match insertAux data rest slugNames false ((n.childGet seg).getD emptyNode) with
         | .error e => .error e
         | .ok c => .ok (n.setChild seg c))
      | .slug name =>
        (match handleSlug n.slugName name slugNames with
         | .error e => .error e
         | .ok slugNames2 =>
           match insertAux data rest slugNames2 false ((n.childGet "[]").getD emptyNode) with
           | .error e => .error e
           | .ok c => .ok ((n.withSlugName name).setChild "[]" c))
      | .catchAll name =>
        if n.optionalRestSlugName.isSome then .error .conflictingCatchAllRequired
        else
          (match handleSlug n.restSlugName name slugNames with
           | .error e => .error e
           | .ok slugNames2 =>
             match insertAux data rest slugNames2 true ((n.childGet "[...]").getD emptyNode) with
             | .error e => .error e
             | .ok c => .ok ((n.withRestSlugName name).setChild "[...]" c))
      | .optionalCatchAll name =>
        if n.restSlugName.isSome then .error .conflictingCatchAllOptional
        else
          (match handleSlug n.optionalRestSlugName name slugNames with
           | .error e => .error e
           | .ok slugNames2 =>
             match insertAux data rest slugNames2 true ((n.childGet "[[...]]").getD emptyNode) with
             | .error e => .error e
             | .ok c => .ok ((n.withOptionalRestSlugName name).setChild "[[...]]" c))

/-- Segments of an inserted path: `urlPath.split('/').filter(seg => seg && !(seg.startsWith('(') &&
seg.endsWith(')')))` — the segment list of `UrlNode.insert`. -/
def routeSegments (urlPath : String) : List String :=
  (jsSplit urlPath '/').filter
    (fun s => s != "" && !(sStartsWith s "(" && sEndsWith s ")"))

/-- The `UrlNode.insert(urlPath, data)` entry point. -/
def urlInsert (n : UrlNode) (urlPath : String) (data : String) :
    Except InsertError UrlNode :=
  insertAux data (routeSegments urlPath) [] false n

/-! ## Lookup (`UrlNode.lookup` / `UrlNode.#lookup`) -/

/-- Parameter values: a dynamic slug binds a string, a catch-all binds the
list of remaining segments. -/
inductive PV : Type where
  | s (v : String)
  | l (vs : List String)
  deriving DecidableEq

/-- The `params` record, as an insertion-ordered association list
(JS object spread-then-set semantics). -/
abbrev Params := List (String × PV)

/-- JS `{ ...params, [k]: v }` / `params[k] = v`: overwrite in place or
append. -/
def setParam (ps : Params) (k : String) (v : PV) : Params :=
  match ps with
  | [] => [(k, v)]
  | (k0, v0) :: rest =>
    if k0 = k then (k, v) :: rest else (k0, v0) :: setParam rest k v

/-- The single exception thrown by `#lookup`: a non-placeholder terminal
node that also carries an optional catch-all child. -/
inductive LookupError : Type where
  | sameSpecificity
  deriving DecidableEq

/-- JS truthiness-guarded validation `this.data && (await validate(this.data))`
on an `Option String` field (the empty string is falsy in JS). -/
def zeroTail (validate : String → Bool) (n : UrlNode) (params : Params) :
    Option (String × Params) :=
  match n.optionalRestSlugName with
  | some oname =>
    let c := (n.childGet "[[...]]").getD emptyNode
    match c.data with
    | some d =>
      if d ≠ "" ∧ validate d = true then some (d, setParam params oname (.l []))
      else none
    | none => none
  | none => none

/-- The required/optional catch-all steps of `#lookup` for a non-empty
remaining-segment list (`urlPaths.slice(index)` is the whole remainder,
current segment included). -/
def catchAllSteps (validate : String → Bool) (n : UrlNode) (params : Params)
    (remaining : List String) : Option (String × Params) :=
  let opt : Option (String × Params) :=
    match n.optionalRestSlugName with
    | some oname =>
      let c := (n.childGet "[[...]]").getD emptyNode
      match c.data with
      | some d =>
        if d ≠ "" ∧ validate d = true then some (d, setParam params oname (.l remaining))
        else none
      | none => none
    | none => none
  match n.restSlugName with
  | some rname =>
    let c := (n.childGet "[...]").getD emptyNode
    match c.data with
    | some d =>
      if d ≠ "" ∧ validate d = true then some (d, setParam params rname (.l remaining))
      else opt
    | none => opt
  | none => opt

/-- The `UrlNode.#lookup` method.  The async validation callback is modelled as a pure
predicate (cooperative scheduling: the awaits only suspend, they do not
change the traversal).  `children.get(key)!` for the synthetic keys is
modelled as `getD emptyNode`: insert always creates the child together with
the slug field, so the default is unreachable on trees built by `insert`. -/
def lookupAux (validate : String → Bool) : List String → UrlNode → Params →
    Except LookupError (Option (String × Params))
  | [], n, params =>
    if n.placeholder = false then
      if n.optionalRestSlugName.isSome then .error .sameSpecificity
      else
        match n.data with
        | some d =>
          if d ≠ "" ∧ validate d = true then .ok (some (d, params))
          else .ok (zeroTail validate n params)
        | none => .ok (zeroTail validate n params)
    else .ok (zeroTail validate n params)
  | seg :: rest, n, params =>
    match (match n.childGet seg with
           | some c => lookupAux validate rest c params
           | none => .ok none) with
    | .error e => .error e
    | .ok (some r) => .ok (some r)
    | .ok none =>
      match n.slugName with
      | some sname =>
        (match lookupAux validate rest ((n.childGet "[]").getD emptyNode)
              (setParam params sname (.s seg)) with
         | .error e => .error e
         | .ok (some r) => .ok (some r)
         | .ok none => .ok (catchAllSteps validate n params (seg :: rest)))
      | none => .ok (catchAllSteps validate n params (seg :: rest))

/-- The `UrlNode.lookup(urlPath, validate)` entry point:
`urlPath.split('/').filter(Boolean)` then `#lookup` from the root. -/
def urlLookup (n : UrlNode) (urlPath : String) (validate : String → Bool) :
    Except LookupError (Option (String × Params)) :=
  lookupAux validate ((jsSplit urlPath '/').filter (fun s => s != "")) n []

def exceptIsOk : Except LookupError (Option (String × Params)) → Bool
  | .ok _ => true
  | .error _ => false

/-! ## The `LRUCache` class (`src/router.ts`, lines 37-80)

The backing JS `Map` is modelled as a recency-ordered association list:
the head is the oldest entry (`#first`), appending refreshes recency.
Stored values are never `undefined` in the router (they are match results,
possibly `null`, or handlers, possibly `null`), so the `item !== undefined`
presence test is a plain key-presence test here. -/

structure LRU (K V : Type) where
  max : Nat
  cache : List (K × V)

variable {K V : Type} [DecidableEq K]

/-- The `new LRUCache(max)` initial state. -/
def emptyLRU (K V : Type) (max : Nat) : LRU K V := ⟨max, []⟩

/-- JS `Map.get`: value of the first (unique) entry with the given key. -/
def findVal (k : K) : List (K × V) → Option V
  | [] => none
  | (k0, v) :: t => if k0 = k then some v else findVal k t

/-- JS `Map.delete`: remove the (unique) entry with the given key. -/
def eraseKey (k : K) : List (K × V) → List (K × V)
  | [] => []
  | (k0, v) :: t => if k0 = k then t else (k0, v) :: eraseKey k t

/-- The `LRUCache.#get` method: on a hit, delete and re-insert the key to refresh
its recency. -/
def lruGet (c : LRU K V) (k : K) : Option V × LRU K V :=
  match findVal k c.cache with
  | some v => (some v, { c with cache := eraseKey k c.cache ++ [(k, v)] })
  | none => (none, c)

/-- The `LRUCache.#set` method: refresh an existing key, otherwise evict the oldest
entry (`#first`) when the cache is full, then insert at the back. -/
def lruSet (c : LRU K V) (k : K) (v : V) : LRU K V :=
  if (findVal k c.cache).isSome then
    { c with cache := eraseKey k c.cache ++ [(k, v)] }
  else if c.cache.length = c.max then
    { c with cache := (match c.cache with
        | [] => ([] : List (K × V))
        | _ :: t => t) ++ [(k, v)] }
  else { c with cache := c.cache ++ [(k, v)] }

/-- The `LRUCache.use(key, fn)` method.  The `Bool` component records whether `fn`
was invoked (it is exactly the cache-miss case of the source). -/
def lruUse (c : LRU K V) (k : K) (f : Unit → V) : V × Bool × LRU K V :=
  match lruGet c k with
  | (some v, c2) => (v, false, c2)
  | (none, _) =>
    let v := f ()
    (v, true, lruSet c k v)

/-- The `LRUCache.clear` method. -/
def lruClear (c : LRU K V) : LRU K V := { c with cache := [] }

/-- A client-visible cache operation: the public interface of `LRUCache`
used by the router is `use` and `clear`. -/
inductive LRUOp (K V : Type) where
  | use (k : K) (f : Unit → V)
  | clear

def lruStep (c : LRU K V) : LRUOp K V → LRU K V
  | .use k f => (lruUse c k f).2.2
  | .clear => lruClear c

def lruRun (c : LRU K V) : List (LRUOp K V) → LRU K V
  | [] => c
  | op :: ops => lruRun (lruStep c op) ops

/-! ## POSIX path normalization

Modelled from the spec: the dispatcher's `posixNormalize` is
`@std/path/posix/normalize`, an external dependency not part of this
repository — "resolve `.`/`..`, collapse slashes" with POSIX semantics
(leading slash and trailing slash preserved, empty path becomes `.`). -/

/-- The segment stack of POSIX normalization: skip empty and `.` segments,
pop on `..` (or keep `..` when ascending above a relative root). -/
def posixNormStack (allowAboveRoot : Bool) (segs : List String) : List String :=
  (segs.foldl
    (fun st seg =>
      if seg = "" ∨ seg = "." then st
      else if seg = ".." then
        match st with
        | [] => if allowAboveRoot then [".."] else []
        | top :: rest => if top = ".." then ".." :: top :: rest else rest
      else seg :: st)
    []).reverse

def joinSlash : List String → String
  | [] => ""
  | [x] => x
  | x :: xs => x ++ "/" ++ joinSlash xs

def posixNormalize (path : String) : String :=
  if path = "" then "."
  else
    let isAbs := sStartsWith path "/"
    let trailing := sEndsWith path "/"
    let core := joinSlash (posixNormStack (!isAbs) (jsSplit path '/'))
    let core := if core = "" ∧ isAbs = false then "." else core
    let core := if core ≠ "" ∧ trailing = true then core ++ "/" else core
    (if isAbs then "/" else "") ++ core

/-! ## The request dispatcher (`createRouter`'s `handler` closure)

`Request` carries the fields the dispatcher reads: the method, the length
of `req.url`, and the already-`decodeURI`-decoded `url.pathname`.
Route modules are a map from file target and export name to the exported
handler, `none` standing both for a missing/non-function export and for a
module that throws on import (the source's `catch` returns `null`). -/

structure Resp where
  status : Nat
  headers : List (String × String)
  body : Option String
  deriving DecidableEq

structure Request where
  method : String
  urlLength : Nat
  decodedPath : String

abbrev HFun := Request → Params → Resp

abbrev Modules := String → String → Option HFun

/-- The supported-method set `const methods = new Set([...])`. -/
def methods : List String := ["GET", "HEAD", "POST", "PUT", "DELETE", "PATCH"]

/-- The `getHandler(file, method)` closure: a HEAD request loads the GET export and
wraps it to discard the body (`new Response(null, await handler(...))`
keeps the status and headers of the GET response). -/
def getHandlerM (modules : Modules) (file method : String) : Option HFun :=
  match modules file (if method = "HEAD" then "GET" else method) with
  | none => none
  | some h =>
    if method = "HEAD" then
      some (fun req ps => { status := (h req ps).status, headers := (h req ps).headers, body := none })
    else some h

/-- The regex test `^/?<escaped urlRoot>(?:/|$)` on the normalized path. -/
def urlRootTest (urlRoot s : String) : Bool :=
  let ok (t : String) : Bool :=
    sStartsWith t urlRoot &&
      (let r := sDrop t urlRoot.data.length
       r == "" || sStartsWith r "/")
  ok s || (sStartsWith s "/" && ok (sDrop s 1))

/-- The distinguishable results of one dispatch.  `staticFallback` stands
for delegation to `serveDir`, `notFound` / `methodNotAllowed` / `uriTooLong`
for `createStandardResponse` with the corresponding status code, and
`redirect` for `Response.redirect` at status 301 to the URL whose pathname
was replaced by the normalized path. -/
inductive Outcome where
  | methodNotAllowed
  | uriTooLong
  | redirect (location : String)
  | routed (resp : Resp)
  | staticFallback
  | notFound
  deriving DecidableEq

structure DispatchConfig where
  urlRoot : String
  hasStatic : Bool
  root : UrlNode
  modules : Modules

/-- The `handler` closure of `createRouter`, for a single dispatch from
freshly built caches (both LRU caches memoize pure functions of the fixed
configuration, so `use` computes exactly the uncached value).  The thrown
lookup error propagates out of the handler (the source does not catch it). -/
def handlerModel (cfg : DispatchConfig) (req : Request) : Except LookupError Outcome :=
  if !(methods.contains req.method) then .ok .methodNotAllowed
  else if 8192 < req.urlLength then .ok .uriTooLong
  else
    let decodedUrl := req.decodedPath
    let normalizedPath := posixNormalize decodedUrl
    if urlRootTest cfg.urlRoot normalizedPath then
      if normalizedPath ≠ decodedUrl then .ok (.redirect normalizedPath)
      else
        let np := replaceFirst normalizedPath cfg.urlRoot
        match urlLookup cfg.root np
            (fun file => (getHandlerM cfg.modules file req.method).isSome) with
        | .error e => .error e
        | .ok (some (file, params)) =>
          (match getHandlerM cfg.modules file req.method with
           | some h => .ok (.routed (h req params))
           | none => .ok .notFound)
        | .ok none =>
          .ok (if cfg.hasStatic then .staticFallback else .notFound)
    else .ok (if cfg.hasStatic then .staticFallback else .notFound)

/-! ## The route-table rebuild (`createTree`)

`createTree` first runs a synchronous block — clear both caches, assign a
fresh empty `UrlNode` to the *shared* `root` binding — and then walks the
directory with `for await`, inserting each file into the already-published
root.  Every loop iteration awaits the walker, so between the synchronous
prefix and each insert other tasks (concurrent dispatches) can run and read
`root`.  `RouterState` is the shared state such a reader sees; the caches
are abstracted to their key lists (only emptiness is at issue here).

`buildObservables` lists the shared states visible at each suspension
point, including the state when `createTree` resolves.  A failing insert
rejects the rebuild promise and stops the walk; the partially mutated
subtree JS leaves behind in that case is not modelled further. -/

structure RouterState where
  root : UrlNode
  lookupCacheKeys : List String
  handlerCacheKeys : List String

def buildObservables : RouterState → List (String × String) → List RouterState
  | s, [] => [s]
  | s, (p, d) :: rest =>
    s :: (match urlInsert s.root p d with
          | .ok r => buildObservables { s with root := r } rest
          | .error _ => [])

/-- The shared states observable during `createTree` run against `files`
(the walk results): the synchronous prefix replaces the previous state
before the first suspension. -/
def createTreeObservables (files : List (String × String)) : List RouterState :=
  buildObservables { root := emptyNode, lookupCacheKeys := [], handlerCacheKeys := [] } files

/-- The fully built trie for a file list (failed inserts leave the trie
unchanged, matching `buildObservables`'s abort convention). -/
def buildTree (files : List (String × String)) : UrlNode :=
  files.foldl
    (fun t pd => match urlInsert t pd.1 pd.2 with
      | .ok r => r
      | .error _ => t)
    emptyNode

/-! ## Auxiliary predicates and scenario constants used by the theorems -/

mutual

/-- Does the trie contain a node that is a non-placeholder terminal and
also carries an optional catch-all child?  Exactly such nodes make the
zero-segment case of `#lookup` throw. -/
def hasBadNode : UrlNode → Bool
  | .mk c p _ _ o _ => (!p && o.isSome) || hasBadNodeL c

def hasBadNodeL : List (String × UrlNode) → Bool
  | [] => false
  | (_, n) :: t => hasBadNode n || hasBadNodeL t

end

def insertIsOk : Except InsertError UrlNode → Bool
  | .ok _ => true
  | .error _ => false

/-- The contract of the LRU cache, for a fixed capacity `max`:
(i) starting from an empty cache, no operation sequence ever grows the
cache beyond `max` entries; (ii) `use` on a present key returns the stored
value, does not invoke `fn`, and moves the key to the most-recent end;
(iii) `use` on an absent key with a full cache evicts exactly the oldest
(least-recently-touched) entry, i.e. the head of the recency list. -/
def LRUContract (K V : Type) [DecidableEq K] (max : Nat) : Prop :=
  (∀ ops : List (LRUOp K V), (lruRun (emptyLRU K V max) ops).cache.length ≤ max) ∧
  (∀ (c : LRU K V) (k : K) (v : V) (f : Unit → V),
      findVal k c.cache = some v →
      lruUse c k f = (v, false, { c with cache := eraseKey k c.cache ++ [(k, v)] })) ∧
  (∀ (c : LRU K V) (k : K) (f : Unit → V) (k0 : K) (v0 : V) (tl : List (K × V)),
      c.cache = (k0, v0) :: tl → (c.cache.map Prod.fst).Nodup →
      findVal k c.cache = none → c.cache.length = c.max →
      (lruUse c k f).2.2.cache = tl ++ [(k, f ())] ∧
      findVal k0 ((lruUse c k f).2.2.cache) = none)

/-- The trie built from a file list starting at an arbitrary node (a failed
insert aborts the build; the convention here matches `buildObservables`). -/
def buildTreeFrom (t : UrlNode) (files : List (String × String)) : UrlNode :=
  files.foldl
    (fun t pd => match urlInsert t pd.1 pd.2 with
      | .ok r => r
      | .error _ => t)
    t

/-- Walk results for the C6 scenario: two literal routes. -/
def c6Files : List (String × String) := [("/a", "fa"), ("/b", "fb")]

/-- The router state before the C6 rebuild: the fully built old trie and
non-empty caches. -/
def c6Old : RouterState :=
  { root := buildTree c6Files, lookupCacheKeys := ["k"], handlerCacheKeys := ["h"] }

/-- C7 counterexample configuration: router mounted at URL root `api`,
no static fallback, empty trie. -/
def c7Cfg : DispatchConfig :=
  { urlRoot := "api", hasStatic := false, root := emptyNode, modules := fun _ _ => none }

/-- C7 counterexample request: the decoded path `/a//b` normalizes to
`/a/b`, which does not fall under the `api` URL root. -/
def c7Req : Request := { method := "GET", urlLength := 10, decodedPath := "/a//b" }

/-- The HEAD request used in the C8 scenario. -/
def c8Req : Request := { method := "HEAD", urlLength := 20, decodedPath := "/posts" }

end Hado

deriving instance DecidableEq for Except

namespace Hado

/-! ## Helper lemmas about `UrlNode` field updates -/

@[simp] theorem data_withData (n : UrlNode) (d : String) :
    (n.withData d).data = some d := by
  cases n; rfl

@[simp] theorem slugName_setChild (n : UrlNode) (k : String) (v : UrlNode) :
    (n.setChild k v).slugName = n.slugName := by
  cases n; rfl

@[simp] theorem restSlugName_setChild (n : UrlNode) (k : String) (v : UrlNode) :
    (n.setChild k v).restSlugName = n.restSlugName := by
  cases n; rfl

@[simp] theorem optionalRestSlugName_setChild (n : UrlNode) (k : String) (v : UrlNode) :
    (n.setChild k v).optionalRestSlugName = n.optionalRestSlugName := by
  cases n; rfl

@[simp] theorem children_setChild (n : UrlNode) (k : String) (v : UrlNode) :
    (n.setChild k v).children = setChildList k v n.children := by
  cases n; rfl

@[simp] theorem slugName_withSlugName (n : UrlNode) (s : String) :
    (n.withSlugName s).slugName = some s := by
  cases n; rfl

@[simp] theorem restSlugName_withSlugName (n : UrlNode) (s : String) :
    (n.withSlugName s).restSlugName = n.restSlugName := by
  cases n; rfl

@[simp] theorem optionalRestSlugName_withSlugName (n : UrlNode) (s : String) :
    (n.withSlugName s).optionalRestSlugName = n.optionalRestSlugName := by
  cases n; rfl

@[simp] theorem slugName_withRestSlugName (n : UrlNode) (s : String) :
    (n.withRestSlugName s).slugName = n.slugName := by
  cases n; rfl

@[simp] theorem restSlugName_withRestSlugName (n : UrlNode) (s : String) :
    (n.withRestSlugName s).restSlugName = some s := by
  cases n; rfl

@[simp] theorem optionalRestSlugName_withRestSlugName (n : UrlNode) (s : String) :
    (n.withRestSlugName s).optionalRestSlugName = n.optionalRestSlugName := by
  cases n; rfl

@[simp] theorem slugName_withOptionalRestSlugName (n : UrlNode) (s : String) :
    (n.withOptionalRestSlugName s).slugName = n.slugName := by
  cases n; rfl

@[simp] theorem restSlugName_withOptionalRestSlugName (n : UrlNode) (s : String) :
    (n.withOptionalRestSlugName s).restSlugName = n.restSlugName := by
  cases n; rfl

@[simp] theorem optionalRestSlugName_withOptionalRestSlugName (n : UrlNode) (s : String) :
    (n.withOptionalRestSlugName s).optionalRestSlugName = some s := by
  cases n; rfl

@[simp] theorem findChild_setChildList (k : String) (v : UrlNode)
    (l : List (String × UrlNode)) : findChild k (setChildList k v l) = some v := by
  induction l with
  | nil => simp [setChildList, findChild]
  | cons hd tl ih =>
    obtain ⟨k0, v0⟩ := hd
    by_cases hk : k0 = k
    · simp [setChildList, findChild, hk]
    · simp [setChildList, findChild, hk, ih]

@[simp] theorem childGet_setChild (n : UrlNode) (k : String) (v : UrlNode) :
    (n.setChild k v).childGet k = some v := by
  simp [UrlNode.childGet]

/-- Re-running `handleSlug` after a successful run, with the slug field now
set to the name that the first run recorded, succeeds with the same list. -/
theorem handleSlug_again (prev : Option String) (name : String)
    (sn sn2 : List String) (h : handleSlug prev name sn = .ok sn2) :
    handleSlug (some name) name sn = .ok sn2 := by
  have hmem : name ∉ sn := by
    cases prev with
    | none =>
      simp only [handleSlug] at h
      intro hc
      simp [hc] at h
    | some p =>
      simp only [handleSlug] at h
      intro hc
      by_cases hp : p ≠ name
      · simp [hp] at h
      · simp [hp, hc] at h
  have hval : sn2 = sn ++ [name] := by
    cases prev with
    | none => simpa [handleSlug, hmem] using h.symm
    | some p =>
      by_cases hp : p ≠ name
      · simp [handleSlug, hp] at h
      · simpa [handleSlug, hp, hmem] using h.symm
  simp [handleSlug, hmem, hval]

/-- Inserting the same segment sequence twice: a successful first insert
forces the second to fail with the duplicate-route conflict naming the two
targets, whatever the starting tree. -/
theorem insertAux_again (d1 d2 : String) :
    ∀ (segs : List String) (sn : List String) (flag : Bool) (n n2 : UrlNode),
      insertAux d1 segs sn flag n = .ok n2 →
      insertAux d2 segs sn flag n2 = .error (.conflict d1 d2)
  | [], sn, flag, n, n2, h => by
    simp only [insertAux] at h ⊢
    cases hd : n.data with
    | some d0 => simp [hd] at h
    | none =>
      simp only [hd] at h
      have hn2 : n2 = n.withData d1 := by
        exact (Except.ok.inj h).symm
      simp [hn2]
  | seg :: rest, sn, flag, n, n2, h => by
    simp only [insertAux] at h ⊢
    cases flag with
    | true => simp at h
    | false =>
      simp only [if_neg (by simp : ¬(false = true))] at h ⊢
      cases hcls : classifySeg seg with
      | err e => simp [hcls] at h
      | literal =>
        simp only [hcls] at h ⊢
        cases hrec : insertAux d1 rest sn false ((n.childGet seg).getD emptyNode) with
        | error e => simp [hrec] at h
        | ok c =>
          simp only [hrec] at h
          have hn2 : n2 = n.setChild seg c := (Except.ok.inj h).symm
          have ih := insertAux_again d1 d2 rest sn false
            ((n.childGet seg).getD emptyNode) c hrec
          simp [hn2, ih]
      | slug name =>
        simp only [hcls] at h ⊢
        cases hslug : handleSlug n.slugName name sn with
        | error e => simp [hslug] at h
        | ok sn2 =>
          simp only [hslug] at h
          cases hrec : insertAux d1 rest sn2 false ((n.childGet "[]").getD emptyNode) with
          | error e => simp [hrec] at h
          | ok c =>
            simp only [hrec] at h
            have hn2 : n2 = (n.withSlugName name).setChild "[]" c := (Except.ok.inj h).symm
            have ih := insertAux_again d1 d2 rest sn2 false
              ((n.childGet "[]").getD emptyNode) c hrec
            simp [hn2, handleSlug_again _ _ _ _ hslug, ih]
      | catchAll name =>
        simp only [hcls] at h ⊢
        cases hopt : n.optionalRestSlugName.isSome with
        | true => simp [hopt] at h
        | false =>
          simp only [hopt, Bool.false_eq_true, if_neg (by simp : ¬False)] at h
          cases hslug : handleSlug n.restSlugName name sn with
          | error e => simp [hslug] at h
          | ok sn2 =>
            simp only [hslug] at h
            cases hrec : insertAux d1 rest sn2 true ((n.childGet "[...]").getD emptyNode) with
            | error e => simp [hrec] at h
            | ok c =>
              simp only [hrec] at h
              have hn2 : n2 = (n.withRestSlugName name).setChild "[...]" c :=
                (Except.ok.inj h).symm
              have ih := insertAux_again d1 d2 rest sn2 true
                ((n.childGet "[...]").getD emptyNode) c hrec
              simp [hn2, hopt, handleSlug_again _ _ _ _ hslug, ih]
      | optionalCatchAll name =>
        simp only [hcls] at h ⊢
        cases hreq : n.restSlugName.isSome with
        | true => simp [hreq] at h
        | false =>
          simp only [hreq, Bool.false_eq_true, if_neg (by simp : ¬False)] at h
          cases hslug : handleSlug n.optionalRestSlugName name sn with
          | error e => simp [hslug] at h
          | ok sn2 =>
            simp only [hslug] at h
            cases hrec : insertAux d1 rest sn2 true ((n.childGet "[[...]]").getD emptyNode) with
            | error e => simp [hrec] at h
            | ok c =>
              simp only [hrec] at h
              have hn2 : n2 = (n.withOptionalRestSlugName name).setChild "[[...]]" c :=
                (Except.ok.inj h).symm
              have ih := insertAux_again d1 d2 rest sn2 true
                ((n.childGet "[[...]]").getD emptyNode) c hrec
              simp [hn2, hreq, handleSlug_again _ _ _ _ hslug, ih]

/-! ## Claim theorems -/

/-- One lookup step when the literal branch produced no match: the
remaining computation is the slug branch followed by the catch-all steps. -/
theorem lookupAux_cons_litNone (validate : String → Bool) (t : UrlNode)
    (seg : String) (rest : List String) (params : Params)
    (hlit : (match t.childGet seg with
             | some c => lookupAux validate rest c params
             | none => .ok none) = .ok none) :
    lookupAux validate (seg :: rest) t params =
      (match t.slugName with
       | some sname =>
         (match lookupAux validate rest ((t.childGet "[]").getD emptyNode)
               (setParam params sname (.s seg)) with
          | .error e => .error e
          | .ok (some r) => .ok (some r)
          | .ok none => .ok (catchAllSteps validate t params (seg :: rest)))
       | none => .ok (catchAllSteps validate t params (seg :: rest))) := by
  simp only [lookupAux]
  cases hcg : t.childGet seg with
  | none => simp only [hcg] at hlit ⊢
  | some c =>
    simp only [hcg] at hlit ⊢
    simp only [hlit]

/-- One lookup step when neither the literal branch nor the slug branch
produced a match: the result is exactly the catch-all steps. -/
theorem lookupAux_cons_litNone_slugNone (validate : String → Bool) (t : UrlNode)
    (seg : String) (rest : List String) (params : Params)
    (hlit : (match t.childGet seg with
             | some c => lookupAux validate rest c params
             | none => .ok none) = .ok none)
    (hslug : (match t.slugName with
              | some sname => lookupAux validate rest ((t.childGet "[]").getD emptyNode)
                  (setParam params sname (.s seg))
              | none => .ok none) = .ok none) :
    lookupAux validate (seg :: rest) t params
      = .ok (catchAllSteps validate t params (seg :: rest)) := by
  rw [lookupAux_cons_litNone validate t seg rest params hlit]
  cases hsn : t.slugName with
  | none => simp only [hsn]
  | some sname =>
    simp only [hsn] at hslug ⊢
    simp only [hslug]

/-- The catch-all steps return the required catch-all whenever its target
validates, regardless of the optional catch-all. -/
theorem catchAllSteps_rest_valid (validate : String → Bool) (t : UrlNode)
    (params : Params) (remaining : List String) (rname d : String)
    (hr : t.restSlugName = some rname)
    (hd : ((t.childGet "[...]").getD emptyNode).data = some d)
    (hval : d ≠ "" ∧ validate d = true) :
    catchAllSteps validate t params remaining
      = some (d, setParam params rname (.l remaining)) := by
  simp only [catchAllSteps, hr, hd]
  rw [if_pos hval]

/-- The catch-all steps fall back to the optional catch-all only when the
required one is absent or fails validation. -/
theorem catchAllSteps_rest_fail_opt_valid (validate : String → Bool) (t : UrlNode)
    (params : Params) (remaining : List String) (oname d : String)
    (hrestfail : match t.restSlugName with
       | some _ =>
         (match ((t.childGet "[...]").getD emptyNode).data with
          | some d2 => ¬(d2 ≠ "" ∧ validate d2 = true)
          | none => True)
       | none => True)
    (ho : t.optionalRestSlugName = some oname)
    (hd : ((t.childGet "[[...]]").getD emptyNode).data = some d)
    (hval : d ≠ "" ∧ validate d = true) :
    catchAllSteps validate t params remaining
      = some (d, setParam params oname (.l remaining)) := by
  simp only [catchAllSteps, ho, hd]
  cases hr : t.restSlugName with
  | none => simp only [hr]; rw [if_pos hval]
  | some rname =>
    simp only [hr] at hrestfail
    cases hd2 : ((t.childGet "[...]").getD emptyNode).data with
    | none => simp only [hr, hd2]; rw [if_pos hval]
    | some d2 =>
      simp only [hd2] at hrestfail
      simp only [hr, hd2]
      rw [if_neg hrestfail, if_pos hval]

/-- The catch-all steps yield no match when both catch-alls are absent or
fail validation. -/
theorem catchAllSteps_none (validate : String → Bool) (t : UrlNode)
    (params : Params) (remaining : List String)
    (hrestfail : match t.restSlugName with
       | some _ =>
         (match ((t.childGet "[...]").getD emptyNode).data with
          | some d2 => ¬(d2 ≠ "" ∧ validate d2 = true)
          | none => True)
       | none => True)
    (hoptfail : match t.optionalRestSlugName with
       | some _ =>
         (match ((t.childGet "[[...]]").getD emptyNode).data with
          | some d2 => ¬(d2 ≠ "" ∧ validate d2 = true)
          | none => True)
       | none => True) :
    catchAllSteps validate t params remaining = none := by
  have hopt : (match t.optionalRestSlugName with
      | some oname =>
        (match ((t.childGet "[[...]]").getD emptyNode).data with
         | some d => if d ≠ "" ∧ validate d = true then
             some (d, setParam params oname (.l remaining)) else none
         | none => none)
      | none => none) = (none : Option (String × Params)) := by
    cases ho : t.optionalRestSlugName with
    | none => rfl
    | some oname =>
      simp only [ho] at hoptfail
      cases hd : ((t.childGet "[[...]]").getD emptyNode).data with
      | none => simp
      | some d =>
        simp only [hd] at hoptfail
        simp only [hd]
        rw [if_neg hoptfail]
  cases hr : t.restSlugName with
  | none => simp only [catchAllSteps, hr]; exact hopt
  | some rname =>
    simp only [hr] at hrestfail
    cases hd2 : ((t.childGet "[...]").getD emptyNode).data with
    | none => simp only [catchAllSteps, hr, hd2]; exact hopt
    | some d2 =>
      simp only [hd2] at hrestfail
      simp only [catchAllSteps, hr, hd2]
      rw [if_neg hrestfail]
      exact hopt

/-- C1: at every trie node, lookup tries the branches in the fixed priority
order literal child, dynamic-slug child, required catch-all, optional
catch-all, and returns the first branch yielding a validated non-null
result: (a) a validated literal-child result is returned as is; (b) when
the literal branch yields no match, a validated slug-branch result is
returned; (c) when literal and slug yield no match, a validated required
catch-all target is returned with the remaining segments bound, regardless
of the optional catch-all; (d) the optional catch-all is returned only
after literal, slug and required catch-all all fail; (e) when no branch
yields a validated result the step returns null.  In particular (f), with
`/posts/archive` and `/posts/[id]` both inserted (in either order) and
both targets passing validation, looking up `/posts/archive` returns the
literal route's target, and (g) with `/posts/[id]` and `/posts/[...all]`
inserted, looking up `/posts/42` returns the dynamic route's target. -/
theorem lookup_priority_order (d1 d2 : String) (validate : String → Bool)
    (h1 : d1 ≠ "") (_h2 : d2 ≠ "")
    (hv1 : validate d1 = true) (_hv2 : validate d2 = true) :
    (∀ (t c : UrlNode) (seg : String) (rest : List String) (params : Params)
        (r : String × Params),
        t.childGet seg = some c →
        lookupAux validate rest c params = .ok (some r) →
        lookupAux validate (seg :: rest) t params = .ok (some r)) ∧
    (∀ (t : UrlNode) (seg : String) (rest : List String) (params : Params)
        (sname : String) (r : String × Params),
        (match t.childGet seg with
         | some c => lookupAux validate rest c params
         | none => .ok none) = .ok none →
        t.slugName = some sname →
        lookupAux validate rest ((t.childGet "[]").getD emptyNode)
          (setParam params sname (.s seg)) = .ok (some r) →
        lookupAux validate (seg :: rest) t params = .ok (some r)) ∧
    (∀ (t : UrlNode) (seg : String) (rest : List String) (params : Params)
        (rname d : String),
        (match t.childGet seg with
         | some c => lookupAux validate rest c params
         | none => .ok none) = .ok none →
        (match t.slugName with
         | some sname => lookupAux validate rest ((t.childGet "[]").getD emptyNode)
             (setParam params sname (.s seg))
         | none => .ok none) = .ok none →
        t.restSlugName = some rname →
        ((t.childGet "[...]").getD emptyNode).data = some d →
        d ≠ "" ∧ validate d = true →
        lookupAux validate (seg :: rest) t params
          = .ok (some (d, setParam params rname (.l (seg :: rest))))) ∧
    (∀ (t : UrlNode) (seg : String) (rest : List String) (params : Params)
        (oname d : String),
        (match t.childGet seg with
         | some c => lookupAux validate rest c params
         | none => .ok none) = .ok none →
        (match t.slugName with
         | some sname => lookupAux validate rest ((t.childGet "[]").getD emptyNode)
             (setParam params sname (.s seg))
         | none => .ok none) = .ok none →
        (match t.restSlugName with
         | some _ =>
           (match ((t.childGet "[...]").getD emptyNode).data with
            | some d2 => ¬(d2 ≠ "" ∧ validate d2 = true)
            | none => True)
         | none => True) →
        t.optionalRestSlugName = some oname →
        ((t.childGet "[[...]]").getD emptyNode).data = some d →
        d ≠ "" ∧ validate d = true →
        lookupAux validate (seg :: rest) t params
          = .ok (some (d, setParam params oname (.l (seg :: rest))))) ∧
    (∀ (t : UrlNode) (seg : String) (rest : List String) (params : Params),
        (match t.childGet seg with
         | some c => lookupAux validate rest c params
         | none => .ok none) = .ok none →
        (match t.slugName with
         | some sname => lookupAux validate rest ((t.childGet "[]").getD emptyNode)
             (setParam params sname (.s seg))
         | none => .ok none) = .ok none →
        (match t.restSlugName with
         | some _ =>
           (match ((t.childGet "[...]").getD emptyNode).data with
            | some d2 => ¬(d2 ≠ "" ∧ validate d2 = true)
            | none => True)
         | none => True) →
        (match t.optionalRestSlugName with
         | some _ =>
           (match ((t.childGet "[[...]]").getD emptyNode).data with
            | some d2 => ¬(d2 ≠ "" ∧ validate d2 = true)
            | none => True)
         | none => True) →
        lookupAux validate (seg :: rest) t params = .ok none) ∧
    (∃ t1 t2 u1 u2 : UrlNode,
      urlInsert emptyNode "/posts/archive" d1 = .ok t1 ∧
      urlInsert t1 "/posts/[id]" d2 = .ok t2 ∧
      urlLookup t2 "/posts/archive" validate = .ok (some (d1, [])) ∧
      urlInsert emptyNode "/posts/[id]" d2 = .ok u1 ∧
      urlInsert u1 "/posts/archive" d1 = .ok u2 ∧
      urlLookup u2 "/posts/archive" validate = .ok (some (d1, []))) ∧
    (∃ v1 v2 : UrlNode,
      urlInsert emptyNode "/posts/[id]" d1 = .ok v1 ∧
      urlInsert v1 "/posts/[...all]" d2 = .ok v2 ∧
      urlLookup v2 "/posts/42" validate = .ok (some (d1, [("id", .s "42")]))) := by
  have hsegs : (jsSplit "/posts/archive" '/').filter (fun s => s != "") = ["posts", "archive"] := rfl
  have hsegs2 : (jsSplit "/posts/42" '/').filter (fun s => s != "") = ["posts", "42"] := rfl
  refine ⟨?_, ?_, ?_, ?_, ?_, ?_, ?_⟩
  · intro t c seg rest params r hcg hrec
    simp only [lookupAux, hcg, hrec]
  · intro t seg rest params sname r hlit hs hslug
    rw [lookupAux_cons_litNone validate t seg rest params hlit]
    simp only [hs, hslug]
  · intro t seg rest params rname d hlit hslug hr hd hval
    rw [lookupAux_cons_litNone_slugNone validate t seg rest params hlit hslug,
      catchAllSteps_rest_valid validate t params (seg :: rest) rname d hr hd hval]
  · intro t seg rest params oname d hlit hslug hrestfail ho hd hval
    rw [lookupAux_cons_litNone_slugNone validate t seg rest params hlit hslug,
      catchAllSteps_rest_fail_opt_valid validate t params (seg :: rest) oname d
        hrestfail ho hd hval]
  · intro t seg rest params hlit hslug hrestfail hoptfail
    rw [lookupAux_cons_litNone_slugNone validate t seg rest params hlit hslug,
      catchAllSteps_none validate t params (seg :: rest) hrestfail hoptfail]
  · refine ⟨_, _, _, _, rfl, rfl, ?_, rfl, rfl, ?_⟩ <;>
    · simp only [urlLookup, hsegs]
      simp [lookupAux, UrlNode.childGet, UrlNode.children, findChild, UrlNode.placeholder,
        UrlNode.slugName, UrlNode.data, UrlNode.optionalRestSlugName, UrlNode.restSlugName,
        zeroTail, catchAllSteps, setParam, emptyNode, UrlNode.withData, UrlNode.setChild,
        UrlNode.withSlugName, setChildList, h1, hv1]
  · refine ⟨.mk [("posts", .mk [("[]", .mk [] false none none none (some d1))]
        true (some "id") none none none)] true none none none none,
      .mk [("posts", .mk [("[]", .mk [] false none none none (some d1)),
          ("[...]", .mk [] false none none none (some d2))]
        true (some "id") (some "all") none none)] true none none none none,
      rfl, rfl, ?_⟩
    simp only [urlLookup, hsegs2]
    simp [lookupAux, UrlNode.childGet, UrlNode.children, findChild, UrlNode.placeholder,
      UrlNode.slugName, UrlNode.data, UrlNode.optionalRestSlugName, UrlNode.restSlugName,
      zeroTail, catchAllSteps, setParam, h1, hv1]

/-- C1 witness at concrete targets and an always-true validation: the
literal-beats-dynamic and dynamic-beats-catch-all scenarios. -/
theorem lookup_priority_order_witness :
    ("fA" ≠ "" ∧ "fB" ≠ "" ∧ (fun (_ : String) => true) "fA" = true ∧
      (fun (_ : String) => true) "fB" = true) ∧
    (∃ t1 t2 u1 u2 : UrlNode,
      urlInsert emptyNode "/posts/archive" "fA" = .ok t1 ∧
      urlInsert t1 "/posts/[id]" "fB" = .ok t2 ∧
      urlLookup t2 "/posts/archive" (fun _ => true) = .ok (some ("fA", [])) ∧
      urlInsert emptyNode "/posts/[id]" "fB" = .ok u1 ∧
      urlInsert u1 "/posts/archive" "fA" = .ok u2 ∧
      urlLookup u2 "/posts/archive" (fun _ => true) = .ok (some ("fA", []))) ∧
    (∃ v1 v2 : UrlNode,
      urlInsert emptyNode "/posts/[id]" "fA" = .ok v1 ∧
      urlInsert v1 "/posts/[...all]" "fB" = .ok v2 ∧
      urlLookup v2 "/posts/42" (fun _ => true) = .ok (some ("fA", [("id", .s "42")]))) :=
  ⟨⟨by decide, by decide, rfl, rfl⟩,
    ((lookup_priority_order "fA" "fB" (fun _ => true)
      (by decide) (by decide) rfl rfl).2.2.2.2.2.1),
    ((lookup_priority_order "fA" "fB" (fun _ => true)
      (by decide) (by decide) rfl rfl).2.2.2.2.2.2)⟩

/-- C2: a required catch-all `/files/[...path]` matches `/files/a/b/c`
binding `path` to the three remaining segments but does not match `/files`
(zero trailing segments); the optional form `/files/[[...path]]` matches
`/files` with an empty binding and `/files/a/b` with the remaining
segments. -/
theorem catch_all_matching (d : String) (validate : String → Bool)
    (hd : d ≠ "") (hv : validate d = true) :
    (∃ t : UrlNode,
      urlInsert emptyNode "/files/[...path]" d = .ok t ∧
      urlLookup t "/files/a/b/c" validate = .ok (some (d, [("path", .l ["a", "b", "c"])])) ∧
      urlLookup t "/files" validate = .ok none) ∧
    (∃ t : UrlNode,
      urlInsert emptyNode "/files/[[...path]]" d = .ok t ∧
      urlLookup t "/files" validate = .ok (some (d, [("path", .l [])])) ∧
      urlLookup t "/files/a/b" validate = .ok (some (d, [("path", .l ["a", "b"])]))) := by
  have hs1 : (jsSplit "/files/a/b/c" '/').filter (fun s => s != "") = ["files", "a", "b", "c"] := rfl
  have hs2 : (jsSplit "/files" '/').filter (fun s => s != "") = ["files"] := rfl
  have hs3 : (jsSplit "/files/a/b" '/').filter (fun s => s != "") = ["files", "a", "b"] := rfl
  constructor
  · refine ⟨.mk [("files", .mk [("[...]", .mk [] false none none none (some d))]
        true none (some "path") none none)] true none none none none, rfl, ?_, ?_⟩ <;>
    · simp only [urlLookup, hs1, hs2]
      simp [lookupAux, UrlNode.childGet, UrlNode.children, findChild, UrlNode.placeholder,
        UrlNode.slugName, UrlNode.data, UrlNode.optionalRestSlugName, UrlNode.restSlugName,
        zeroTail, catchAllSteps, setParam, hd, hv]
  · refine ⟨.mk [("files", .mk [("[[...]]", .mk [] false none none none (some d))]
        true none none (some "path") none)] true none none none none, rfl, ?_, ?_⟩ <;>
    · simp only [urlLookup, hs2, hs3]
      simp [lookupAux, UrlNode.childGet, UrlNode.children, findChild, UrlNode.placeholder,
        UrlNode.slugName, UrlNode.data, UrlNode.optionalRestSlugName, UrlNode.restSlugName,
        zeroTail, catchAllSteps, setParam, hd, hv]

/-- C2 witness at a concrete target and an always-true validation. -/
theorem catch_all_matching_witness :
    ("fC" ≠ "" ∧ (fun (_ : String) => true) "fC" = true) ∧
    (∃ t : UrlNode,
      urlInsert emptyNode "/files/[...path]" "fC" = .ok t ∧
      urlLookup t "/files/a/b/c" (fun _ => true)
        = .ok (some ("fC", [("path", .l ["a", "b", "c"])])) ∧
      urlLookup t "/files" (fun _ => true) = .ok none) :=
  ⟨⟨by decide, rfl⟩,
    (catch_all_matching "fC" (fun _ => true) (by decide) rfl).1⟩

/-- C3: two insert calls whose paths normalize to the same segment sequence
(after discarding empty and parenthesized group segments) conflict: if the
first insert into an empty trie succeeds, the second fails with the
duplicate-route error naming both targets. -/
theorem duplicate_route_conflict (p1 p2 d1 d2 : String) (t : UrlNode)
    (hseg : routeSegments p1 = routeSegments p2)
    (h1 : urlInsert emptyNode p1 d1 = .ok t) :
    urlInsert t p2 d2 = .error (.conflict d1 d2) := by
  unfold urlInsert at h1 ⊢
  rw [← hseg]
  exact insertAux_again d1 d2 _ [] false emptyNode t h1

/-- A child found in a list with no bad nodes has no bad nodes. -/
theorem hasBadNode_of_findChild (k : String) :
    ∀ (l : List (String × UrlNode)) (c : UrlNode),
      hasBadNodeL l = false → findChild k l = some c → hasBadNode c = false
  | [], c, _, hf => by simp [findChild] at hf
  | (k0, n) :: t, c, hl, hf => by
    simp only [hasBadNodeL, Bool.or_eq_false_iff] at hl
    simp only [findChild] at hf
    by_cases hk : k0 = k
    · rw [if_pos hk] at hf
      exact (Option.some.inj hf) ▸ hl.1
    · rw [if_neg hk] at hf
      exact hasBadNode_of_findChild k t c hl.2 hf

theorem hasBadNode_parts (n : UrlNode) (h : hasBadNode n = false) :
    (!n.placeholder && n.optionalRestSlugName.isSome) = false ∧
      hasBadNodeL n.children = false := by
  cases n with
  | mk c p s r o d =>
    simp only [hasBadNode, Bool.or_eq_false_iff] at h
    exact ⟨h.1, h.2⟩

theorem hasBadNode_getD (o : Option UrlNode) (l : List (String × UrlNode))
    (k : String) (hl : hasBadNodeL l = false) (ho : findChild k l = o) :
    hasBadNode (o.getD emptyNode) = false := by
  cases o with
  | none => rfl
  | some c => exact hasBadNode_of_findChild k l c hl ho

/-- Lookup on a trie without bad nodes never throws, whatever the path and
the validation predicate. -/
theorem lookupAux_isOk (v : String → Bool) :
    ∀ (segs : List String) (t : UrlNode) (params : Params),
      hasBadNode t = false → exceptIsOk (lookupAux v segs t params) = true
  | [], t, params, hbad => by
    have h := hasBadNode_parts t hbad
    simp only [lookupAux]
    by_cases hp : t.placeholder = false
    · have ho : t.optionalRestSlugName.isSome = false := by
        rcases h with ⟨h1, _⟩
        cases hiso : t.optionalRestSlugName.isSome
        · rfl
        · rw [hp, hiso] at h1
          simp at h1
      rw [if_pos hp, if_neg (by simp [ho])]
      cases hd : t.data with
      | some d =>
        show exceptIsOk (if d ≠ "" ∧ v d = true then Except.ok (some (d, params))
          else Except.ok (zeroTail v t params)) = true
        split <;> rfl
      | none => rfl
    · rw [if_neg hp]; rfl
  | seg :: rest, t, params, hbad => by
    have h := hasBadNode_parts t hbad
    simp only [lookupAux]
    have slugPart : exceptIsOk
        (match t.slugName with
         | some sname =>
           (match lookupAux v rest ((t.childGet "[]").getD emptyNode)
                 (setParam params sname (.s seg)) with
            | .error e => .error e
            | .ok (some r) => .ok (some r)
            | .ok none => .ok (catchAllSteps v t params (seg :: rest)))
         | none => .ok (catchAllSteps v t params (seg :: rest))) = true := by
      cases hs : t.slugName with
      | none => rfl
      | some sname =>
        have hc2 : hasBadNode ((t.childGet "[]").getD emptyNode) = false :=
          hasBadNode_getD (t.childGet "[]") t.children "[]" h.2 rfl
        have ih2 := lookupAux_isOk v rest ((t.childGet "[]").getD emptyNode)
          (setParam params sname (.s seg)) hc2
        cases hrec2 : lookupAux v rest ((t.childGet "[]").getD emptyNode)
            (setParam params sname (.s seg)) with
        | error e => rw [hrec2] at ih2; simp [exceptIsOk] at ih2
        | ok o => cases o with
          | some r => simp [hrec2, exceptIsOk]
          | none => simp [hrec2, exceptIsOk]
    cases hcg : t.childGet seg with
    | none => exact slugPart
    | some c =>
      have hc : hasBadNode c = false := hasBadNode_of_findChild seg t.children c h.2 hcg
      have ih := lookupAux_isOk v rest c params hc
      cases hrec : lookupAux v rest c params with
      | error e => rw [hrec] at ih; simp [exceptIsOk] at ih
      | ok o => cases o with
        | some r => simp [hrec, exceptIsOk]
        | none => simp only [hrec]; exact slugPart

/-- C4: lookup never throws on a trie without a non-placeholder terminal
that carries an optional catch-all child (so a thrown lookup implies such a
node exists); and the throwing state is reachable, since insert accepts the
layout `/files` plus `/files/[[...path]]`, after which looking up `/files`
throws the same-specificity error. -/
theorem lookup_total_unless_optional_specificity :
    (∀ (t : UrlNode) (p : String) (v : String → Bool),
        hasBadNode t = false → exceptIsOk (urlLookup t p v) = true) ∧
    (∃ t1 t2 : UrlNode,
      urlInsert emptyNode "/files" "f1" = .ok t1 ∧
      urlInsert t1 "/files/[[...path]]" "f2" = .ok t2 ∧
      urlLookup t2 "/files" (fun _ => true) = .error .sameSpecificity) := by
  constructor
  · intro t p v hb
    exact lookupAux_isOk v _ t [] hb
  · exact ⟨_, _, rfl, rfl, by decide⟩

/-- C4 witness: a concrete one-route trie has no bad node and its lookups
never throw. -/
theorem lookup_total_unless_optional_specificity_witness :
    hasBadNode (.mk [("posts", .mk [] false none none none (some "fA"))]
      true none none none none) = false ∧
    exceptIsOk (urlLookup (.mk [("posts", .mk [] false none none none (some "fA"))]
      true none none none none) "/posts" (fun _ => true)) = true :=
  ⟨by decide,
    lookup_total_unless_optional_specificity.1
      (.mk [("posts", .mk [] false none none none (some "fA"))] true none none none none)
      "/posts" (fun _ => true) (by decide)⟩

/-- A key that is in no entry of the list is not found. -/
theorem findVal_none_of_not_mem {K V : Type} [DecidableEq K] (k : K) :
    ∀ l : List (K × V), k ∉ l.map Prod.fst → findVal k l = none
  | [], _ => rfl
  | (k0, v) :: t, h => by
    simp only [List.map_cons, List.mem_cons] at h
    push_neg at h
    simp only [findVal]
    rw [if_neg (fun hc => h.1 hc.symm)]
    exact findVal_none_of_not_mem k t h.2

/-- Deleting a found key shrinks the list by exactly one entry. -/
theorem eraseKey_length_of_found {K V : Type} [DecidableEq K] (k : K) (v : V) :
    ∀ l : List (K × V), findVal k l = some v → (eraseKey k l).length + 1 = l.length
  | [], h => by simp [findVal] at h
  | (k0, v0) :: t, h => by
    simp only [findVal] at h
    simp only [eraseKey]
    by_cases hk : k0 = k
    · rw [if_pos hk]
      simp
    · rw [if_neg hk] at h ⊢
      simp only [List.length_cons]
      have := eraseKey_length_of_found k v t h
      omega

/-- One cache operation preserves the capacity field and the size bound
(for a positive capacity). -/
theorem lruStep_inv {K V : Type} [DecidableEq K] (c : LRU K V) (op : LRUOp K V)
    (hmax : 1 ≤ c.max) (hlen : c.cache.length ≤ c.max) :
    (lruStep c op).max = c.max ∧ (lruStep c op).cache.length ≤ c.max := by
  cases op with
  | clear => exact ⟨rfl, by simp [lruStep, lruClear]⟩
  | use k f =>
    simp only [lruStep, lruUse, lruGet]
    cases hf : findVal k c.cache with
    | some v =>
      have := eraseKey_length_of_found k v c.cache hf
      constructor
      · rfl
      · simp only [List.length_append, List.length_cons, List.length_nil]
        omega
    | none =>
      simp only [lruSet, hf, Option.isSome_none, Bool.false_eq_true, if_false]
      by_cases hfull : c.cache.length = c.max
      · rw [if_pos hfull]
        cases hc : c.cache with
        | nil => simp_all
        | cons hd tl =>
          constructor
          · rfl
          · rw [hc] at hfull
            simp only [List.length_cons] at hfull
            simp only [List.length_append, List.length_cons, List.length_nil]
            omega
      · rw [if_neg hfull]
        exact ⟨rfl, by simp only [List.length_append, List.length_cons, List.length_nil]; omega⟩

/-- Any operation sequence preserves the capacity field and the size
bound. -/
theorem lruRun_inv {K V : Type} [DecidableEq K] :
    ∀ (ops : List (LRUOp K V)) (c : LRU K V), 1 ≤ c.max → c.cache.length ≤ c.max →
      (lruRun c ops).max = c.max ∧ (lruRun c ops).cache.length ≤ c.max
  | [], c, _, hlen => ⟨rfl, hlen⟩
  | op :: ops, c, hmax, hlen => by
    have hstep := lruStep_inv c op hmax hlen
    have := lruRun_inv ops (lruStep c op) (hstep.1 ▸ hmax) (hstep.1 ▸ hstep.2)
    simp only [lruRun]
    exact ⟨this.1.trans hstep.1, hstep.1 ▸ this.2⟩

/-- C5: the LRU cache satisfies its contract for every positive capacity:
the size never exceeds the capacity, a `use` hit returns the stored value
without invoking the compute function and refreshes the key's recency, and
a `use` miss on a full cache evicts exactly the least-recently-touched
(oldest) entry. -/
theorem lru_cache_contract (K V : Type) [DecidableEq K] (max : Nat)
    (hmax : 1 ≤ max) : LRUContract K V max := by
  refine ⟨?_, ?_, ?_⟩
  · intro ops
    exact (lruRun_inv ops (emptyLRU K V max) hmax (by simp [emptyLRU])).2
  · intro c k v f hf
    simp [lruUse, lruGet, hf]
  · intro c k f k0 v0 tl hcache hnodup hnone hfull
    have hk0k : ¬(k0 = k) := by
      intro he
      rw [hcache] at hnone
      simp only [findVal] at hnone
      rw [if_pos he] at hnone
      exact Option.noConfusion hnone
    have hnone2 : findVal k ((k0, v0) :: tl) = none := hcache ▸ hnone
    have hfull2 : ((k0, v0) :: tl).length = c.max := hcache ▸ hfull
    have hnew : (lruUse c k f).2.2.cache = tl ++ [(k, f ())] := by
      simp only [lruUse, lruGet, hcache, hnone2, lruSet, Option.isSome_none,
        Bool.false_eq_true, if_false, hfull2, if_true, if_pos rfl]
    refine ⟨hnew, ?_⟩
    rw [hnew]
    apply findVal_none_of_not_mem
    rw [hcache] at hnodup
    simp only [List.map_cons, List.nodup_cons] at hnodup
    simp only [List.map_append, List.mem_append, List.map_cons, List.map_nil,
      List.mem_singleton]
    push_neg
    exact ⟨hnodup.1, hk0k⟩

/-- C5 witness at capacity 2 and natural-number keys and values. -/
theorem lru_cache_contract_witness : 1 ≤ 2 ∧ LRUContract Nat Nat 2 :=
  ⟨by decide, lru_cache_contract Nat Nat 2 (by decide)⟩

/-- Every state observable at a suspension point of the rebuild has the
partially built trie of the files processed so far and the cache contents
of the state the synchronous prefix left behind. -/
theorem buildObservables_get :
    ∀ (files : List (String × String)) (s0 : RouterState) (i : Nat) (s : RouterState),
      (buildObservables s0 files)[i]? = some s →
      s.root = buildTreeFrom s0.root (files.take i) ∧
      s.lookupCacheKeys = s0.lookupCacheKeys ∧ s.handlerCacheKeys = s0.handlerCacheKeys
  | [], s0, i, s, h => by
    simp only [buildObservables] at h
    cases i with
    | zero =>
      simp only [List.getElem?_cons_zero, Option.some.injEq] at h
      subst h
      exact ⟨by simp [buildTreeFrom], rfl, rfl⟩
    | succ n => simp at h
  | (p, d) :: rest, s0, i, s, h => by
    simp only [buildObservables] at h
    cases i with
    | zero =>
      simp only [List.getElem?_cons_zero, Option.some.injEq] at h
      subst h
      exact ⟨by simp [buildTreeFrom], rfl, rfl⟩
    | succ n =>
      simp only [List.getElem?_cons_succ] at h
      cases hins : urlInsert s0.root p d with
      | ok r =>
        rw [hins] at h
        have ih := buildObservables_get rest { s0 with root := r } n s h
        refine ⟨?_, ih.2.1, ih.2.2⟩
        rw [ih.1]
        simp [buildTreeFrom, hins]
      | error e =>
        rw [hins] at h
        simp at h

/-- C6 (amended): during a rebuild the caches are cleared and an empty trie
is published before the first suspension; afterwards each observable state
carries the partially built trie of exactly the files inserted so far, with
both caches still empty — so a concurrently dispatching reader can observe
any partial trie, not only the old or the fully built new one. -/
theorem rebuild_publishes_each_insert_step (files : List (String × String))
    (i : Nat) (s : RouterState)
    (h : (createTreeObservables files)[i]? = some s) :
    s.root = buildTree (files.take i) ∧
    s.lookupCacheKeys = [] ∧ s.handlerCacheKeys = [] := by
  have hobs := buildObservables_get files
    { root := emptyNode, lookupCacheKeys := [], handlerCacheKeys := [] } i s h
  exact ⟨hobs.1, hobs.2.1, hobs.2.2⟩

/-- C6 witness: the state observed after the first insert of the two-route
rebuild carries exactly the one-route partial trie and empty caches. -/
theorem rebuild_publishes_each_insert_step_witness :
    (createTreeObservables c6Files)[1]? =
      some { root := .mk [("a", .mk [] false none none none (some "fa"))] true none none none none,
             lookupCacheKeys := [], handlerCacheKeys := [] } ∧
    (RouterState.mk (.mk [("a", .mk [] false none none none (some "fa"))] true none none none none)
      [] []).root = buildTree (c6Files.take 1) ∧
    (RouterState.mk (.mk [("a", .mk [] false none none none (some "fa"))] true none none none none)
      [] []).lookupCacheKeys = [] ∧
    (RouterState.mk (.mk [("a", .mk [] false none none none (some "fa"))] true none none none none)
      [] []).handlerCacheKeys = [] := by
  have h := rebuild_publishes_each_insert_step c6Files 1
    (RouterState.mk (.mk [("a", .mk [] false none none none (some "fa"))] true none none none none)
      [] []) rfl
  exact ⟨rfl, h.1, h.2.1, h.2.2⟩

/-- C6 counterexample: during the rebuild against two routes, the reader
can observe (at the suspension after the first insert) a published trie
that answers `/b` with "no match", while both the old fully built trie and
the new fully built trie answer `/b` with the `fb` route — the observable
state is neither the old nor the new fully built trie. -/
theorem rebuild_not_atomic_cex :
    (createTreeObservables c6Files)[1]? =
      some { root := .mk [("a", .mk [] false none none none (some "fa"))] true none none none none,
             lookupCacheKeys := [], handlerCacheKeys := [] } ∧
    urlLookup (.mk [("a", .mk [] false none none none (some "fa"))] true none none none none)
      "/b" (fun _ => true) = .ok none ∧
    urlLookup c6Old.root "/b" (fun _ => true) = .ok (some ("fb", [])) ∧
    urlLookup (buildTree c6Files) "/b" (fun _ => true) = .ok (some ("fb", [])) :=
  ⟨rfl, by decide, by decide, by decide⟩

/-- C7 (amended): when the normalized decoded path falls under the
configured URL root, a normalization change produces a 301 redirect to the
normalized location before any route matching. -/
theorem normalize_redirect_under_root (cfg : DispatchConfig) (req : Request)
    (hm : methods.contains req.method = true) (hl : req.urlLength ≤ 8192)
    (hroot : urlRootTest cfg.urlRoot (posixNormalize req.decodedPath) = true)
    (hne : posixNormalize req.decodedPath ≠ req.decodedPath) :
    handlerModel cfg req = .ok (.redirect (posixNormalize req.decodedPath)) := by
  unfold handlerModel
  rw [hm]
  simp only [Bool.not_true, Bool.false_eq_true, if_false]
  rw [if_neg (show ¬(8192 < req.urlLength) from by omega)]
  rw [hroot]
  simp only [if_true]
  rw [if_pos hne]

/-- C7 witness: under the default empty URL root, `/a//b` normalizes to
`/a/b` and the dispatcher redirects there. -/
theorem normalize_redirect_under_root_witness :
    (methods.contains "GET" = true ∧ (10 : Nat) ≤ 8192 ∧
      urlRootTest "" (posixNormalize "/a//b") = true ∧
      posixNormalize "/a//b" ≠ "/a//b") ∧
    handlerModel
        { urlRoot := "", hasStatic := false, root := emptyNode, modules := fun _ _ => none }
        { method := "GET", urlLength := 10, decodedPath := "/a//b" }
      = .ok (.redirect (posixNormalize "/a//b")) :=
  ⟨⟨by decide, by decide, by decide, by decide⟩,
    normalize_redirect_under_root _ _ (by decide) (by decide) (by decide) (by decide)⟩

/-- C7 counterexample: with the router mounted at URL root `api`, the
decoded path `/a//b` changes under normalization, yet the dispatcher
returns 404 (the redirect branch sits inside the URL-root test), not a
redirect to the normalized location. -/
theorem normalize_redirect_cex :
    methods.contains c7Req.method = true ∧ c7Req.urlLength ≤ 8192 ∧
    posixNormalize c7Req.decodedPath ≠ c7Req.decodedPath ∧
    handlerModel c7Cfg c7Req = .ok .notFound ∧
    handlerModel c7Cfg c7Req ≠ .ok (.redirect (posixNormalize c7Req.decodedPath)) := by
  decide

/-- C8: with the single route `/posts` inserted and no static fallback, a
HEAD request to `/posts` whose module exports `GET` but not `HEAD` answers
with the GET handler's status and headers and a null body; if the module
exports neither `GET` nor `HEAD`, the same request answers 404. -/
theorem head_reuses_get (f : String) (hf : f ≠ "") (g : HFun) (m : Modules) (t : UrlNode)
    (ht : urlInsert emptyNode "/posts" f = .ok t) :
    (m f "GET" = some g → m f "HEAD" = none →
       handlerModel { urlRoot := "", hasStatic := false, root := t, modules := m } c8Req
         = .ok (.routed { status := (g c8Req []).status,
                          headers := (g c8Req []).headers, body := none })) ∧
    (m f "GET" = none → m f "HEAD" = none →
       handlerModel { urlRoot := "", hasStatic := false, root := t, modules := m } c8Req
         = .ok .notFound) := by
  have ht2 : t = .mk [("posts", .mk [] false none none none (some f))] true none none none none :=
    (Except.ok.inj ht).symm
  subst ht2
  have hs : (jsSplit "/posts" '/').filter (fun s => s != "") = ["posts"] := rfl
  constructor <;>
  · intro hg _hh
    unfold handlerModel
    simp only [c8Req]
    rw [show methods.contains "HEAD" = true from rfl]
    simp only [Bool.not_true, Bool.false_eq_true, if_false]
    rw [if_neg (show ¬((8192 : Nat) < 20) from by omega)]
    rw [show posixNormalize "/posts" = "/posts" from rfl]
    rw [show urlRootTest "" "/posts" = true from rfl]
    simp only [if_true]
    rw [if_neg (show ¬("/posts" ≠ "/posts") from by simp)]
    rw [show replaceFirst "/posts" "" = "/posts" from rfl]
    simp only [urlLookup, hs]
    simp [lookupAux, UrlNode.childGet, UrlNode.children, findChild, UrlNode.placeholder,
      UrlNode.slugName, UrlNode.data, UrlNode.optionalRestSlugName, UrlNode.restSlugName,
      zeroTail, catchAllSteps, getHandlerM, hg, hf]

/-- C8 witness: a concrete GET-only module answers the HEAD request with
status 200, the GET headers and a null body; a module with no exports
answers 404. -/
theorem head_reuses_get_witness :
    handlerModel
        { urlRoot := "", hasStatic := false,
          root := .mk [("posts", .mk [] false none none none (some "fG"))] true none none none none,
          modules := fun file e => if file = "fG" ∧ e = "GET" then
            some (fun _ _ => { status := 200, headers := [("x", "y")], body := some "hi" })
            else none }
        c8Req
      = .ok (.routed { status := 200, headers := [("x", "y")], body := none }) ∧
    handlerModel
        { urlRoot := "", hasStatic := false,
          root := .mk [("posts", .mk [] false none none none (some "fG"))] true none none none none,
          modules := fun _ _ => none }
        c8Req
      = .ok .notFound :=
  ⟨(head_reuses_get "fG" (by decide)
        (fun _ _ => { status := 200, headers := [("x", "y")], body := some "hi" })
        (fun file e => if file = "fG" ∧ e = "GET" then
          some (fun _ _ => { status := 200, headers := [("x", "y")], body := some "hi" })
          else none)
        _ rfl).1 (by simp) (by simp),
    (head_reuses_get "fG" (by decide)
        (fun _ _ => { status := 200, headers := [("x", "y")], body := some "hi" })
        (fun _ _ => none) _ rfl).2 rfl rfl⟩

/-- C9: a supported method with a URL longer than 8192 bytes answers 414,
whatever the route table, modules and URL root are. -/
theorem uri_too_long_guard (cfg : DispatchConfig) (req : Request)
    (hm : methods.contains req.method = true) (hlen : 8192 < req.urlLength) :
    handlerModel cfg req = .ok .uriTooLong := by
  unfold handlerModel
  rw [hm]
  simp [hlen]

/-- C9 witness: an oversized GET answers 414 even though the path `/x` has
a matching route whose module exports a GET handler. -/
theorem uri_too_long_guard_witness :
    (methods.contains "GET" = true ∧ 8192 < (8193 : Nat)) ∧
    handlerModel
        { urlRoot := "", hasStatic := false,
          root := .mk [("x", .mk [] false none none none (some "fX"))] true none none none none,
          modules := fun _ _ => some (fun _ _ => { status := 200, headers := [], body := none }) }
        { method := "GET", urlLength := 8193, decodedPath := "/x" }
      = .ok .uriTooLong :=
  ⟨⟨by decide, by decide⟩, uri_too_long_guard _ _ (by decide) (by decide)⟩

/-- C10: an unsupported method answers 405 before the URL-length guard is
consulted: the outcome is 405 for every URL length, in particular for URLs
over the 8192 limit. -/
theorem method_guard_before_length (cfg : DispatchConfig) (req : Request)
    (hm : methods.contains req.method = false) :
    handlerModel cfg req = .ok .methodNotAllowed := by
  unfold handlerModel
  rw [hm]
  simp

/-- C10 witness: `OPTIONS` with a URL over the limit still answers 405,
not 414. -/
theorem method_guard_before_length_witness :
    (methods.contains "OPTIONS" = false ∧ 8192 < (10000 : Nat)) ∧
    handlerModel
        { urlRoot := "", hasStatic := false, root := emptyNode, modules := fun _ _ => none }
        { method := "OPTIONS", urlLength := 10000, decodedPath := "/x" }
      = .ok .methodNotAllowed :=
  ⟨⟨by decide, by decide⟩, method_guard_before_length _ _ (by decide)⟩

/-- C3 witness: `/(blog)/posts` and `/posts` normalize to the same segments,
the first insert alone succeeds, and the second raises the conflict naming
both targets. -/
theorem duplicate_route_conflict_witness :
    routeSegments "/(blog)/posts" = routeSegments "/posts" ∧
    urlInsert emptyNode "/(blog)/posts" "f1"
      = .ok (.mk [("posts", .mk [] false none none none (some "f1"))] true none none none none) ∧
    urlInsert (.mk [("posts", .mk [] false none none none (some "f1"))] true none none none none)
      "/posts" "f2" = .error (.conflict "f1" "f2") :=
  ⟨by decide, rfl,
    duplicate_route_conflict "/(blog)/posts" "/posts" "f1" "f2" _ (by decide) rfl⟩

end Hado
